import Mathlib

/-!
Verification development for the LLM-Video-Summarizer backend.

The definitions below are a shallow embedding of the streaming
video-processing pipeline of `backend/app.py` (the `generate` generator of
the `/process-video-stream` endpoint) together with the helper operations of
`backend/video_processor.py` (`get_video_info`, `download_audio`,
`transcribe_audio`, `validate_video_url`).  External effects (model loading,
yt-dlp, the speech model, the LLM, sqlite) are represented by an `Env`
record holding the outcome of each external call; the filesystem is a list
of file names.  The theorems settle the claims of the specification.
-/

/-- Python `str.strip` whitespace predicate (Unicode whitespace as used by
CPython `str.strip()`). -/
def pyIsSpace (c : Char) : Bool :=
  decide (9 ≤ c.toNat ∧ c.toNat ≤ 13) || decide (28 ≤ c.toNat ∧ c.toNat ≤ 31) ||
  decide (c.toNat = 32) || decide (c.toNat = 133) || decide (c.toNat = 160) ||
  decide (c.toNat = 5760) || decide (8192 ≤ c.toNat ∧ c.toNat ≤ 8202) ||
  decide (c.toNat = 8232) || decide (c.toNat = 8233) || decide (c.toNat = 8239) ||
  decide (c.toNat = 8287) || decide (c.toNat = 12288)

/-- Python `str.strip()`: drop leading and trailing whitespace. -/
def pyStrip (s : String) : String :=
  String.mk (((s.data.dropWhile pyIsSpace).reverse.dropWhile pyIsSpace).reverse)

/-- Boolean substring test on character lists (Python `needle in hay`). -/
def listHas (needle : List Char) : List Char → Bool
  | [] => needle.isEmpty
  | c :: rest => needle.isPrefixOf (c :: rest) || listHas needle rest

/-- Python `p in s` substring containment on strings. -/
def strHas (s p : String) : Bool := listHas p.data s.data

/-- Python `s.startswith(p)`. -/
def strStarts (s p : String) : Bool := p.data.isPrefixOf s.data

/-- String ends with the given suffix. -/
def strEnds (s p : String) : Bool := p.data.reverse.isPrefixOf s.data.reverse

/-- Concatenation of a list of strings (Python repeated `+=`). -/
def strConcat : List String → String
  | [] => ""
  | s :: rest => s ++ strConcat rest

/-- The discriminated union of messages pushed to the client during a
streaming run (the `type` field of each JSON object yielded by `generate`). -/
inductive Event where
  | status (message : String)
  | transcript (data : String)
  | summary_chunk (data : String)
  | complete (video_title : String) (message : String)
  | error (message : String)
deriving DecidableEq

/-- One row inserted into the `video_jobs` table. -/
structure SaveRec where
  user_id : Nat
  video_url : String
  video_title : String
  transcript : String
  summary : String
deriving DecidableEq

/-- Outcomes of all external interactions one streaming run can perform,
plus the initial working-directory contents and the behaviour of the
cleanup syscalls.  `Except.error m` models a raised exception whose
`str(e)` is `m`. -/
structure Env where
  /-- Outcome of `SimpleVideoToText()` construction (model loading). -/
  initResult : Except String Unit
  /-- Outcome of `ydl.extract_info`: an exception, or an info dict with
  optional `title` and `id` fields. -/
  infoResult : Except String (Option String × Option String)
  /-- Outcome of the yt-dlp download producing `temp_audio.wav`. -/
  download : Except String Unit
  /-- Outcome of loading plus decoding the audio: an exception, or the raw
  decoded transcript before stripping and the sentinel check. -/
  transcribeRaw : Except String String
  /-- Chunks yielded by `converter.llm.stream(prompt)` before it either
  finishes or raises. -/
  streamChunks : List String
  /-- Whether `converter.llm.stream` raises after yielding `streamChunks`
  (`streamChunks = []` models raising before the first chunk). -/
  streamFails : Bool
  /-- Outcome of the one-shot `converter.generate_summary(transcript)`. -/
  fallback : Except String String
  /-- Outcome of the `INSERT INTO video_jobs` plus commit. -/
  saveResult : Except String Unit
  /-- File names in the working directory when the run starts. -/
  fs0 : List String
  /-- Whether `os.remove(audio_file)` in the cleanup raises. -/
  removeAudioFails : Bool
  /-- Whether the cleanup sweep over `temp_audio*` raises. -/
  sweepFails : Bool

/-- Characters matched by the `re.sub` class in `get_video_info`
(the class of characters illegal in filenames). -/
def illegalFilenameChar (c : Char) : Bool :=
  c = '<' || c = '>' || c = ':' || c = '"' || c = '/' || c = '\\' ||
  c = '|' || c = '?' || c = '*'

/-- Title sanitization of `get_video_info`: each illegal filename character
is replaced by an underscore, then the result is truncated to 50 code
points (`title[:50]`). -/
def clean_title (t : String) : String :=
  String.mk ((t.data.map (fun c => if illegalFilenameChar c then '_' else c)).take 50)

/-- Modelled from the spec words, for comparison with `clean_title` only:
sanitize by REMOVING (stripping) the illegal filename characters, then
truncate to 50 code points. -/
def clean_title_spec (t : String) : String :=
  String.mk ((t.data.filter (fun c => !illegalFilenameChar c)).take 50)

/-- `SimpleVideoToText.get_video_info`: on success, the `title` and `id`
fields of the info dict (with defaults) and the title sanitized; on any
exception, the sentinels. -/
def get_video_info (r : Except String (Option String × Option String)) :
    String × String :=
  match r with
  | .ok info =>
    let title := info.1.getD "Unknown_Video"
    let video_id := info.2.getD "unknown_id"
    (clean_title title, video_id)
  | .error _ => ("Unknown_Video", "unknown_id")

/-- `SimpleVideoToText.download_audio`: first sweeps any existing
`temp_audio*` files, then downloads; a yt-dlp failure raises
`Audio download failed: ...`; on success `temp_audio.wav` exists and its
name is returned.  Returns the outcome and the updated directory. -/
def download_audio (dl : Except String Unit) (fs : List String) :
    Except String String × List String :=
  let fs1 := fs.filter (fun f => !(strStarts f "temp_audio"))
  match dl with
  | .error m => (.error ("Audio download failed: " ++ m), fs1)
  | .ok _ => (.ok "temp_audio.wav", "temp_audio.wav" :: fs1)

/-- `SimpleVideoToText.transcribe_audio`: an exception while loading or
decoding raises `Transcription failed: ...`; otherwise the decoded text is
stripped and, when empty or shorter than 3 characters, replaced by the
sentinel. -/
def transcribe_audio (raw : Except String String) : Except String String :=
  match raw with
  | .error m => .error ("Transcription failed: " ++ m)
  | .ok t =>
    let t := pyStrip t
    .ok (if t = "" ∨ t.length < 3 then "No clear speech detected in the audio." else t)

/-- The summarization stage of `generate`: stream chunks, accumulating them
into `summary`; if the stream raises, emit the fallback status and invoke
the one-shot `generate_summary`, whose result becomes the summary and is
emitted as a single chunk; a fallback exception propagates.  Returns the
emitted events and the summary outcome. -/
def summarize_stage (env : Env) : List Event × Except String String :=
  let chunkEvs := env.streamChunks.map Event.summary_chunk
  if env.streamFails then
    match env.fallback with
    | .error m =>
      (chunkEvs ++ [.status "Streaming failed, generating complete summary..."], .error m)
    | .ok s =>
      (chunkEvs ++ [.status "Streaming failed, generating complete summary...",
                    .summary_chunk s], .ok s)
  else
    (chunkEvs, .ok (strConcat env.streamChunks))

/-- Result of the body of `generate` (everything before the `finally`
block): emitted events, database rows written, directory contents, and the
value of the `audio_file` local (set only after a successful download). -/
structure BodyResult where
  events : List Event
  saves : List SaveRec
  fs : List String
  audio_file : Option String
deriving DecidableEq

/-- The `try`/`except` body of `generate` in `app.py`: the staged pipeline
emitting status events, with any exception caught and converted into a
single `error` event. -/
def runBody (env : Env) (video_url : String) (user_id : Nat) : BodyResult :=
  let evs0 : List Event := [.status "Starting video processing..."]
  match env.initResult with
  | .error m => ⟨evs0 ++ [.error m], [], env.fs0, none⟩
  | .ok _ =>
    let video_title := (get_video_info env.infoResult).1
    let evs1 := evs0 ++ [.status "Getting video information...",
                         .status ("Found video: " ++ video_title),
                         .status "Downloading audio..."]
    match download_audio env.download env.fs0 with
    | (.error m, fs1) => ⟨evs1 ++ [.error m], [], fs1, none⟩
    | (.ok audio_file, fs1) =>
      let evs2 := evs1 ++ [.status "Transcribing audio to text..."]
      match transcribe_audio env.transcribeRaw with
      | .error m => ⟨evs2 ++ [.error m], [], fs1, some audio_file⟩
      | .ok transcript =>
        let evs3 := evs2 ++ [.transcript transcript,
                             .status "Generating AI summary... (Live typing)"]
        match summarize_stage env with
        | (sevs, .error m) => ⟨evs3 ++ sevs ++ [.error m], [], fs1, some audio_file⟩
        | (sevs, .ok summary) =>
          let evs4 := evs3 ++ sevs ++ [.status "Saving to database..."]
          match env.saveResult with
          | .error m => ⟨evs4 ++ [.error m], [], fs1, some audio_file⟩
          | .ok _ =>
            ⟨evs4 ++ [.complete video_title "Processing completed successfully!"],
             [⟨user_id, video_url, video_title, transcript, summary⟩],
             fs1, some audio_file⟩

/-- The `finally` block of `generate`: remove the audio file if it was ever
created and still exists (a failing `os.remove` is swallowed), then sweep
all remaining `temp_audio*` files (a failing sweep is swallowed). -/
def cleanupFS (removeFails sweepFails : Bool) (audio_file : Option String)
    (fs : List String) : List String :=
  let fs1 := match audio_file with
    | none => fs
    | some f => if f ∈ fs then (if removeFails then fs else fs.erase f) else fs
  if sweepFails then fs1 else fs1.filter (fun f => !(strStarts f "temp_audio"))

/-- Observable result of one full run of the `generate` sequence. -/
structure RunResult where
  events : List Event
  saves : List SaveRec
  fs : List String
deriving DecidableEq

/-- One full run of the `generate` sequence of `/process-video-stream`:
the staged body followed unconditionally by the cleanup. -/
def generate (env : Env) (video_url : String) (user_id : Nat) : RunResult :=
  let r := runBody env video_url user_id
  ⟨r.events, r.saves, cleanupFS env.removeAudioFails env.sweepFails r.audio_file r.fs⟩

/-- The response of the `/process-video-stream` endpoint after
authentication: an immediate 400 JSON error, or a streaming run. -/
inductive StreamResponse where
  | badRequest (error : String)
  | stream (r : RunResult)
deriving DecidableEq

/-- The `/process-video-stream` endpoint after authentication and body
parsing: strip the submitted URL, reject with a 400 error when the result
is empty, otherwise start the streaming run. -/
def process_video_stream (video_url_raw : String) (user_id : Nat) (env : Env) :
    StreamResponse :=
  let video_url := pyStrip video_url_raw
  if video_url = "" then .badRequest "Video URL is required"
  else .stream (generate env video_url user_id)

/-- `validate_video_url` of `video_processor.py`. -/
def validate_video_url (video_input : String) : Option String :=
  if video_input = "" then none
  else
    let v := pyStrip video_input
    if strHas v "youtube.com" || strHas v "youtu.be" then some v
    else some ("https://www.youtube.com/watch?v=" ++ v)

/-- Lower-case hexadecimal digit, as produced by `json.dumps` escapes. -/
def hexDigit : Nat → Char
  | 0 => '0' | 1 => '1' | 2 => '2' | 3 => '3' | 4 => '4'
  | 5 => '5' | 6 => '6' | 7 => '7' | 8 => '8' | 9 => '9'
  | 10 => 'a' | 11 => 'b' | 12 => 'c' | 13 => 'd' | 14 => 'e' | _ => 'f'

/-- Four-digit hexadecimal rendering used in `\uXXXX` escapes. -/
def hex4 (n : Nat) : String :=
  String.mk [hexDigit (n / 4096 % 16), hexDigit (n / 256 % 16),
             hexDigit (n / 16 % 16), hexDigit (n % 16)]

/-- Escaping of one character inside a JSON string literal, as performed by
`json.dumps` with its default `ensure_ascii=True`. -/
def jsonEscapeChar (c : Char) : String :=
  if c = '"' then "\\\""
  else if c = '\\' then "\\\\"
  else if c = '\n' then "\\n"
  else if c = '\r' then "\\r"
  else if c = '\t' then "\\t"
  else if c.toNat = 8 then "\\b"
  else if c.toNat = 12 then "\\f"
  else if c.toNat < 32 then "\\u" ++ hex4 c.toNat
  else if c.toNat < 127 then String.mk [c]
  else if c.toNat < 65536 then "\\u" ++ hex4 c.toNat
  else "\\u" ++ hex4 (55296 + (c.toNat - 65536) / 1024) ++
       "\\u" ++ hex4 (56320 + (c.toNat - 65536) % 1024)

/-- JSON string literal for a Lean string (`json.dumps` of a `str`). -/
def jsonStr (s : String) : String :=
  "\"" ++ strConcat (s.data.map jsonEscapeChar) ++ "\""

/-- The JSON object `json.dumps` produces for each yielded event, with the
key order and separators of the source. -/
def jsonOfEvent : Event → String
  | .status m =>
      "\x7b\"type\": \"status\", \"message\": " ++ jsonStr m ++ "\x7d"
  | .transcript d =>
      "\x7b\"type\": \"transcript\", \"data\": " ++ jsonStr d ++ "\x7d"
  | .summary_chunk d =>
      "\x7b\"type\": \"summary_chunk\", \"data\": " ++ jsonStr d ++ "\x7d"
  | .complete t m =>
      "\x7b\"type\": \"complete\", \"video_title\": " ++ jsonStr t ++
      ", \"message\": " ++ jsonStr m ++ "\x7d"
  | .error m =>
      "\x7b\"type\": \"error\", \"message\": " ++ jsonStr m ++ "\x7d"

/-- The exact string `generate` yields for one event:
`f"data: \x7b...\x7d\n\n"` in the source. -/
def frameOfEvent (e : Event) : String :=
  "data: " ++ jsonOfEvent e ++ "\n\n"

/-- Modelled from the spec words, for comparison with `frameOfEvent` only:
a frame is exactly one bare JSON object terminated by a blank line. -/
def frameIsBareJsonObject (e : Event) : Bool :=
  frameOfEvent e == jsonOfEvent e ++ "\n\n"

/-- The full text written onto the chunked response for one run. -/
def streamOutput (r : RunResult) : String :=
  strConcat (r.events.map frameOfEvent)

/-- Split a character list at every double newline (how a client splits the
response into frames). -/
def splitNN : List Char → List (List Char)
  | [] => [[]]
  | [c] => [[c]]
  | c :: d :: rest =>
    if c = '\n' ∧ d = '\n' then [] :: splitNN rest
    else match splitNN (d :: rest) with
      | [] => [[c]]
      | p :: ps => (c :: p) :: ps

/-- Split a string on every double newline. -/
def splitFrames (s : String) : List String := (splitNN s.data).map String.mk

/-- True when the string contains no newline character. -/
def strNoNewline (s : String) : Bool := s.data.all (fun c => !(c == '\n'))

/-- Terminal events of a run: `complete` and `error`. -/
def isTerminal : Event → Bool
  | .complete _ _ => true
  | .error _ => true
  | _ => false

/-- Number of terminal events in an emitted sequence. -/
def terminalCount (l : List Event) : Nat := (l.filter (fun e => isTerminal e)).length

/-- Whether the final emitted event is terminal (false for an empty run). -/
def lastIsTerminal (l : List Event) : Bool := (l.reverse.head?.map isTerminal).getD false

@[simp] theorem isTerminal_status (s : String) : isTerminal (.status s) = false := rfl

@[simp] theorem isTerminal_transcript (s : String) : isTerminal (.transcript s) = false := rfl

@[simp] theorem isTerminal_chunk (s : String) : isTerminal (.summary_chunk s) = false := rfl

@[simp] theorem isTerminal_complete (t m : String) : isTerminal (.complete t m) = true := rfl

@[simp] theorem isTerminal_error (m : String) : isTerminal (.error m) = true := rfl

@[simp] theorem filter_terminal_chunks (l : List String) :
    (l.map Event.summary_chunk).filter (fun e => isTerminal e) = [] := by
  induction l with
  | nil => rfl
  | cons a t ih => simp [List.filter_cons, ih]

/-- C1: every run of the `generate` sequence emits exactly one terminal
event (`complete` or `error`), and that terminal event is the last event of
the run, so no event of any kind follows it. -/
theorem generate_single_terminal_event (env : Env) (url : String) (uid : Nat) :
    terminalCount (generate env url uid).events = 1 ∧
    lastIsTerminal (generate env url uid).events = true := by
  obtain ⟨init, info, dl, traw, chunks, sfail, fb, save, fs0, rf, sf⟩ := env
  cases init <;> cases dl <;> cases traw <;> cases sfail <;> cases fb <;> cases save <;>
    simp [generate, runBody, summarize_stage, download_audio, transcribe_audio,
          terminalCount, lastIsTerminal, List.filter_append, List.filter_cons,
          List.reverse_append, List.reverse_cons]

@[simp] theorem strStarts_temp_wav : strStarts "temp_audio.wav" "temp_audio" = true := by
  decide

/-- C5: the cleanup path runs exactly once at the end of every run,
whatever stage failed: the emitted events and the persisted rows are
unchanged by failures raised inside cleanup (a cleanup error never replaces
or follows the already-determined terminal outcome); when the sweep does
not fail, the final directory holds exactly the initial non-`temp_audio`
files (the namespace sweep is performed); and whenever the temporary audio
file was created, a non-failing remove leaves it absent from the final
directory. -/
theorem generate_cleanup_always (env : Env) (url : String) (uid : Nat) (b b' : Bool) :
    ((generate { env with removeAudioFails := b, sweepFails := b' } url uid).events
        = (generate env url uid).events
     ∧ (generate { env with removeAudioFails := b, sweepFails := b' } url uid).saves
        = (generate env url uid).saves)
    ∧ (generate { env with sweepFails := false } url uid).fs
        = env.fs0.filter (fun f => !(strStarts f "temp_audio"))
    ∧ (∀ f, (runBody env url uid).audio_file = some f →
        f ∉ (generate { env with removeAudioFails := false } url uid).fs) := by
  obtain ⟨init, info, dl, traw, chunks, sfail, fb, save, fs0, rf, sf⟩ := env
  cases init <;> cases dl <;> cases traw <;> cases sfail <;> cases fb <;>
    cases save <;> cases rf <;> cases sf <;>
    simp [generate, runBody, cleanupFS, summarize_stage, download_audio,
          transcribe_audio, List.filter_filter, List.mem_filter]

/-- The fixed scenario of the specification: metadata resolves to title
`Test Video`, transcription decodes `hello world`, the incremental
summarizer yields three chunks, and every other call succeeds. -/
def envScenario : Env :=
  { initResult := .ok ()
    infoResult := .ok (some "Test Video", some "abc123")
    download := .ok ()
    transcribeRaw := .ok "hello world"
    streamChunks := ["Hello", " world", "."]
    streamFails := false
    fallback := .ok "fallback summary"
    saveResult := .ok ()
    fs0 := []
    removeAudioFails := false
    sweepFails := false }

/-- Witness for the cleanup theorem at a run that creates the audio file. -/
theorem generate_cleanup_always_witness :
    "temp_audio.wav" ∉
      (generate { envScenario with removeAudioFails := false }
        "https://youtu.be/abc123" 1).fs :=
  (generate_cleanup_always envScenario "https://youtu.be/abc123" 1 true true).2.2
    "temp_audio.wav" rfl

/-- C2 counterexample: in the fixed scenario the fourth emitted event is
still a `status` event (`Downloading audio...`), not the transcript; five
`status` events precede the transcript, not three as claimed. -/
theorem scenario_three_status_refuted :
    (generate envScenario "https://youtu.be/abc123" 1).events.take 4 =
      [.status "Starting video processing...",
       .status "Getting video information...",
       .status "Found video: Test Video",
       .status "Downloading audio..."] ∧
    ((generate envScenario "https://youtu.be/abc123" 1).events.take 4 ≠
      [.status "Starting video processing...",
       .status "Getting video information...",
       .status "Found video: Test Video",
       .transcript "hello world"]) := by
  exact ⟨rfl, by decide⟩

/-- C2 (amended: five status events precede the transcript event, not
three): the fixed scenario emits exactly this sequence, and the job store
is written exactly once, with transcript `hello world` and summary
`Hello world.`, the concatenation of the emitted chunks. -/
theorem scenario_event_sequence :
    (generate envScenario "https://youtu.be/abc123" 1).events =
      [.status "Starting video processing...",
       .status "Getting video information...",
       .status "Found video: Test Video",
       .status "Downloading audio...",
       .status "Transcribing audio to text...",
       .transcript "hello world",
       .status "Generating AI summary... (Live typing)",
       .summary_chunk "Hello",
       .summary_chunk " world",
       .summary_chunk ".",
       .status "Saving to database...",
       .complete "Test Video" "Processing completed successfully!"] ∧
    (generate envScenario "https://youtu.be/abc123" 1).saves =
      [⟨1, "https://youtu.be/abc123", "Test Video", "hello world", "Hello world."⟩] := by
  exact ⟨rfl, rfl⟩

/-- Modelled from the spec words, for comparison with
`process_video_stream` only: the response to an invalid URL is a streaming
run whose whole event sequence is one `error` event. -/
def respIsSingleErrorRun : StreamResponse → Bool
  | .stream r => match r.events with
    | [Event.error _] => true
    | _ => false
  | .badRequest _ => false

/-- C3 counterexample: for the whitespace-only URL the endpoint returns an
HTTP 400 JSON error before any streaming run starts; no run emitting an
`error` event exists. -/
theorem empty_url_no_stream_error_event :
    respIsSingleErrorRun (process_video_stream "   " 1 envScenario) = false ∧
    process_video_stream "   " 1 envScenario = .badRequest "Video URL is required" := by
  exact ⟨rfl, rfl⟩

/-- C3 (amended: the empty or whitespace-only URL is rejected before any
run starts, with a single HTTP 400 error response rather than a streaming
`error` event): the response is the same for every environment, so no
network call outcome can influence it and no pipeline work is started. -/
theorem empty_url_rejected_before_run (raw : String) (uid : Nat) (env : Env)
    (h : pyStrip raw = "") :
    process_video_stream raw uid env = .badRequest "Video URL is required" := by
  simp [process_video_stream, h]

/-- Witness for the rejection theorem at a concrete whitespace-only URL. -/
theorem empty_url_rejected_before_run_witness :
    process_video_stream " \t " 7 envScenario = .badRequest "Video URL is required" :=
  empty_url_rejected_before_run " \t " 7 envScenario (by decide)

/-- C4: whenever the incremental summarization channel raises, at any point
including before the first chunk, and the one-shot fallback and the save
succeed, the run emits the fallback status event, then the full non-empty
one-shot result as a single `summary_chunk`, then proceeds directly to
persistence and `complete`; the job store is written exactly once and the
stored summary is the one-shot result. -/
theorem stream_failure_fallback (env : Env) (url : String) (uid : Nat) (s : String)
    (hinit : env.initResult = .ok ())
    (hdl : env.download = .ok ())
    (ht : ∃ t0, env.transcribeRaw = .ok t0)
    (hfail : env.streamFails = true)
    (hfb : env.fallback = .ok s)
    (hs : s ≠ "")
    (hsave : env.saveResult = .ok ()) :
    (generate env url uid).events.reverse.take 4 =
      [.complete (get_video_info env.infoResult).1 "Processing completed successfully!",
       .status "Saving to database...",
       .summary_chunk s,
       .status "Streaming failed, generating complete summary..."] ∧
    (generate env url uid).saves.length = 1 ∧
    (generate env url uid).saves.map SaveRec.summary = [s] := by
  obtain ⟨t0, ht⟩ := ht
  simp [generate, runBody, summarize_stage, download_audio, transcribe_audio,
        hinit, hdl, ht, hfail, hfb, hsave]

/-- Environment of a run whose incremental summarizer raises before the
first chunk and whose one-shot fallback succeeds. -/
def envStreamFail : Env :=
  { envScenario with
      streamChunks := []
      streamFails := true
      fallback := .ok "Full fallback summary." }

/-- Witness for the fallback theorem at a concrete failing stream. -/
theorem stream_failure_fallback_witness :
    (generate envStreamFail "https://youtu.be/abc123" 1).events.reverse.take 4 =
      [.complete "Test Video" "Processing completed successfully!",
       .status "Saving to database...",
       .summary_chunk "Full fallback summary.",
       .status "Streaming failed, generating complete summary..."] ∧
    (generate envStreamFail "https://youtu.be/abc123" 1).saves.length = 1 ∧
    (generate envStreamFail "https://youtu.be/abc123" 1).saves.map SaveRec.summary =
      ["Full fallback summary."] :=
  stream_failure_fallback envStreamFail "https://youtu.be/abc123" 1
    "Full fallback summary." rfl rfl ⟨"hello world", rfl⟩ rfl rfl (by decide) rfl

/-- C6: when metadata resolution raises but every later stage succeeds, the
failure is non-fatal: the title and id are mapped to the sentinels, the
pipeline proceeds through the download, transcription, summarization and
persistence stages, and the run ends with `complete` carrying the sentinel
title, which is also the title persisted for the job. -/
theorem metadata_failure_nonfatal (env : Env) (url : String) (uid : Nat) (m : String)
    (hinfo : env.infoResult = .error m)
    (hinit : env.initResult = .ok ())
    (hdl : env.download = .ok ())
    (ht : ∃ t0, env.transcribeRaw = .ok t0)
    (hstream : env.streamFails = false)
    (hsave : env.saveResult = .ok ()) :
    get_video_info env.infoResult = ("Unknown_Video", "unknown_id") ∧
    (generate env url uid).events.take 5 =
      [.status "Starting video processing...",
       .status "Getting video information...",
       .status "Found video: Unknown_Video",
       .status "Downloading audio...",
       .status "Transcribing audio to text..."] ∧
    (generate env url uid).events.reverse.head? =
      some (.complete "Unknown_Video" "Processing completed successfully!") ∧
    (generate env url uid).saves.map SaveRec.video_title = ["Unknown_Video"] := by
  obtain ⟨t0, ht⟩ := ht
  simp [generate, runBody, summarize_stage, download_audio, transcribe_audio,
        get_video_info, hinfo, hinit, hdl, ht, hstream, hsave]

/-- Environment of a run whose metadata extraction raises. -/
def envMetaFail : Env := { envScenario with infoResult := .error "boom" }

/-- Witness for the metadata-failure theorem at a concrete run. -/
theorem metadata_failure_nonfatal_witness :
    get_video_info envMetaFail.infoResult = ("Unknown_Video", "unknown_id") ∧
    (generate envMetaFail "https://youtu.be/abc123" 1).events.take 5 =
      [.status "Starting video processing...",
       .status "Getting video information...",
       .status "Found video: Unknown_Video",
       .status "Downloading audio...",
       .status "Transcribing audio to text..."] ∧
    (generate envMetaFail "https://youtu.be/abc123" 1).events.reverse.head? =
      some (.complete "Unknown_Video" "Processing completed successfully!") ∧
    (generate envMetaFail "https://youtu.be/abc123" 1).saves.map SaveRec.video_title =
      ["Unknown_Video"] :=
  metadata_failure_nonfatal envMetaFail "https://youtu.be/abc123" 1 "boom"
    rfl rfl rfl ⟨"hello world", rfl⟩ rfl rfl

/-- C8 counterexample: the code does not strip (remove) the illegal
filename characters, it replaces each of them with an underscore: for the
resolved title `a<b` the derived videoTitle is `a_b`, while removal would
give `ab`. -/
theorem clean_title_not_stripping :
    (get_video_info (.ok (some "a<b", some "x"))).1 = "a_b" ∧
    clean_title_spec "a<b" = "ab" ∧
    (get_video_info (.ok (some "a<b", some "x"))).1 ≠ clean_title_spec "a<b" := by
  exact ⟨rfl, rfl, by decide⟩

/-- C8 (amended: each illegal filename character is replaced by an
underscore rather than stripped): for every successfully resolved title the
derived videoTitle is the title with every illegal character replaced by an
underscore, truncated to at most 50 code points, and it contains no illegal
character; when extraction fails the sentinels are returned. -/
theorem get_video_info_title_sanitized (title : String) (vid : Option String)
    (m : String) :
    (get_video_info (.ok (some title, vid))).1 = clean_title title ∧
    (clean_title title).length ≤ 50 ∧
    (clean_title title).data.all (fun c => !illegalFilenameChar c) = true ∧
    get_video_info (.error m) = ("Unknown_Video", "unknown_id") := by
  refine ⟨rfl, ?_, ?_, rfl⟩
  · rw [clean_title, String.length_mk, List.length_take]
    omega
  · rw [List.all_eq_true]
    intro c hc
    simp only [clean_title] at hc
    have hc2 := List.take_subset 50 _ hc
    obtain ⟨a, _, rfl⟩ := List.mem_map.mp hc2
    by_cases h : illegalFilenameChar a = true
    · rw [if_pos h]; decide
    · rw [if_neg h]
      simp only [Bool.not_eq_true] at h
      simp [h]

/-- C9: on every successful decode, `transcribe_audio` returns the stripped
transcript unless that is empty or shorter than three characters, in which
case it returns the sentinel; every string it returns as a success has at
least three characters, so an empty or unusably short transcript is never
propagated as a false success. -/
theorem transcribe_audio_no_false_success (t : String) :
    transcribe_audio (.ok t) =
      .ok (if pyStrip t = "" ∨ (pyStrip t).length < 3
           then "No clear speech detected in the audio." else pyStrip t) ∧
    (∀ s, transcribe_audio (.ok t) = .ok s → 3 ≤ s.length) ∧
    ((pyStrip t).length < 3 →
      transcribe_audio (.ok t) = .ok "No clear speech detected in the audio.") := by
  refine ⟨rfl, ?_, ?_⟩
  · intro s h
    simp only [transcribe_audio, Except.ok.injEq] at h
    subst h
    split
    · decide
    · rename_i h2
      push_neg at h2
      omega
  · intro h
    simp [transcribe_audio, if_pos (Or.inr h)]

/-- Witness for the transcription-sentinel theorem on an unusably short
decode. -/
theorem transcribe_audio_no_false_success_witness :
    transcribe_audio (.ok " a ") = .ok "No clear speech detected in the audio." :=
  (transcribe_audio_no_false_success " a ").2.2 (by decide)

/-- C10: `validate_video_url` returns `none` exactly on the empty input;
otherwise it returns the trimmed input unchanged when that contains
`youtube.com` or `youtu.be` as a substring, and in every other case it
prepends the watch-URL prefix to the trimmed input; a whitespace-only
non-empty input is therefore not rejected and yields the watch URL with an
empty video id. -/
theorem validate_video_url_behaviour (s : String) :
    (validate_video_url s = none ↔ s = "") ∧
    (s ≠ "" → validate_video_url s =
      some (if strHas (pyStrip s) "youtube.com" || strHas (pyStrip s) "youtu.be"
            then pyStrip s
            else "https://www.youtube.com/watch?v=" ++ pyStrip s)) ∧
    validate_video_url "   " = some "https://www.youtube.com/watch?v=" := by
  refine ⟨?_, ?_, by decide⟩
  · constructor
    · intro h
      by_contra hne
      simp only [validate_video_url, if_neg hne] at h
      split at h <;> simp_all
    · intro h
      simp [validate_video_url, h]
  · intro h
    simp only [validate_video_url, if_neg h]
    split <;> simp_all

/-- Witness for the URL-normalization theorem on a bare video id. -/
theorem validate_video_url_behaviour_witness :
    validate_video_url "abc123" =
      some (if strHas (pyStrip "abc123") "youtube.com" ||
               strHas (pyStrip "abc123") "youtu.be"
            then pyStrip "abc123"
            else "https://www.youtube.com/watch?v=" ++ pyStrip "abc123") :=
  (validate_video_url_behaviour "abc123").2.1 (by decide)

@[simp] theorem strNoNewline_append (a b : String) :
    strNoNewline (a ++ b) = (strNoNewline a && strNoNewline b) := by
  simp [strNoNewline, String.data_append, List.all_append]

theorem hexDigit_ne_nl : ∀ k, hexDigit k ≠ '\n'
  | 0 | 1 | 2 | 3 | 4 | 5 | 6 | 7 | 8 | 9 | 10 | 11 | 12 | 13 | 14 => by decide
  | n + 15 => by
      have h : hexDigit (n + 15) = 'f' := rfl
      rw [h]; decide

theorem strNoNewline_hex4 (n : Nat) : strNoNewline (hex4 n) = true := by
  simp [hex4, strNoNewline, hexDigit_ne_nl]

theorem strNoNewline_uhex (n : Nat) : strNoNewline ("\\u" ++ hex4 n) = true := by
  rw [strNoNewline_append, strNoNewline_hex4]
  decide

theorem strNoNewline_jsonEscapeChar (c : Char) :
    strNoNewline (jsonEscapeChar c) = true := by
  rw [jsonEscapeChar]
  by_cases h1 : c = '"'
  · rw [if_pos h1]; decide
  rw [if_neg h1]
  by_cases h2 : c = '\\'
  · rw [if_pos h2]; decide
  rw [if_neg h2]
  by_cases h3 : c = '\n'
  · rw [if_pos h3]; decide
  rw [if_neg h3]
  by_cases h4 : c = '\r'
  · rw [if_pos h4]; decide
  rw [if_neg h4]
  by_cases h5 : c = '\t'
  · rw [if_pos h5]; decide
  rw [if_neg h5]
  by_cases h6 : c.toNat = 8
  · rw [if_pos h6]; decide
  rw [if_neg h6]
  by_cases h7 : c.toNat = 12
  · rw [if_pos h7]; decide
  rw [if_neg h7]
  by_cases h8 : c.toNat < 32
  · rw [if_pos h8]; exact strNoNewline_uhex _
  rw [if_neg h8]
  by_cases h9 : c.toNat < 127
  · rw [if_pos h9]
    simp [strNoNewline, h3]
  rw [if_neg h9]
  by_cases h10 : c.toNat < 65536
  · rw [if_pos h10]; exact strNoNewline_uhex _
  rw [if_neg h10]
  rw [strNoNewline_append, strNoNewline_hex4, strNoNewline_append,
      strNoNewline_append, strNoNewline_hex4]
  decide

theorem strNoNewline_strConcat (l : List String)
    (h : ∀ s ∈ l, strNoNewline s = true) : strNoNewline (strConcat l) = true := by
  induction l with
  | nil => decide
  | cons a t ih =>
    simp only [strConcat, strNoNewline_append, Bool.and_eq_true]
    exact ⟨h a (by simp), ih (fun s hs => h s (by simp [hs]))⟩

theorem strNoNewline_jsonStr (s : String) : strNoNewline (jsonStr s) = true := by
  have hc : strNoNewline (strConcat (s.data.map jsonEscapeChar)) = true := by
    refine strNoNewline_strConcat _ ?_
    intro x hx
    obtain ⟨c, _, rfl⟩ := List.mem_map.mp hx
    exact strNoNewline_jsonEscapeChar c
  rw [jsonStr, strNoNewline_append, strNoNewline_append, hc]
  decide

theorem strNoNewline_jsonOfEvent (e : Event) :
    strNoNewline (jsonOfEvent e) = true := by
  cases e <;>
    (simp only [jsonOfEvent, strNoNewline_append, strNoNewline_jsonStr,
                Bool.and_true, Bool.true_and] <;> decide)

theorem strNoNewline_frameBody (e : Event) :
    strNoNewline ("data: " ++ jsonOfEvent e) = true := by
  rw [strNoNewline_append, strNoNewline_jsonOfEvent]
  decide

theorem isPrefixOf_append (p a b : List Char) (h : p.isPrefixOf a = true) :
    p.isPrefixOf (a ++ b) = true := by
  induction p generalizing a with
  | nil => simp [List.isPrefixOf]
  | cons x xs ih =>
    cases a with
    | nil => simp [List.isPrefixOf] at h
    | cons y ys =>
      simp only [List.isPrefixOf, List.cons_append, Bool.and_eq_true] at h ⊢
      exact ⟨h.1, ih ys h.2⟩

theorem strEnds_append (a b p : String) (h : strEnds b p = true) :
    strEnds (a ++ b) p = true := by
  rw [strEnds] at h ⊢
  rw [String.data_append, List.reverse_append]
  exact isPrefixOf_append _ _ _ h

theorem jsonOfEvent_starts (e : Event) :
    strStarts (jsonOfEvent e) "\x7b\"type\": \"" = true := by
  cases e <;>
    (simp only [jsonOfEvent, strStarts, String.data_append, List.append_assoc] <;>
     (apply isPrefixOf_append; decide))

theorem jsonOfEvent_ends (e : Event) : strEnds (jsonOfEvent e) "\x7d" = true := by
  have hbase : strEnds "\x7d" "\x7d" = true := by decide
  cases e <;> exact strEnds_append _ _ _ hbase

theorem splitNN_body (b rest : List Char)
    (h : b.all (fun c => !(c == '\n')) = true) :
    splitNN (b ++ '\n' :: '\n' :: rest) = b :: splitNN rest := by
  induction b with
  | nil => simp [splitNN]
  | cons c t ih =>
    simp only [List.all_cons, Bool.and_eq_true] at h
    obtain ⟨hc, ht⟩ := h
    have hcne : ¬ c = '\n' := by simpa [beq_iff_eq] using hc
    have ih' := ih ht
    cases t with
    | nil => simp [splitNN, hcne]
    | cons c2 t2 =>
      simp only [List.cons_append] at ih' ⊢
      simp [splitNN, hcne, ih']

theorem splitNN_frames (bodies : List (List Char))
    (h : ∀ b ∈ bodies, b.all (fun c => !(c == '\n')) = true) :
    splitNN ((bodies.map (fun b => b ++ ['\n', '\n'])).flatten) = bodies ++ [[]] := by
  induction bodies with
  | nil => simp [splitNN]
  | cons b bs ih =>
    simp only [List.map_cons, List.flatten_cons, List.append_assoc, List.cons_append,
               List.nil_append]
    rw [splitNN_body b _ (h b (by simp)), ih (fun x hx => h x (by simp [hx]))]

theorem data_strConcat (l : List String) :
    (strConcat l).data = (l.map String.data).flatten := by
  induction l with
  | nil => rfl
  | cons a t ih => simp [strConcat, String.data_append, ih]

@[simp] theorem string_mk_data (s : String) : String.mk s.data = s := rfl

@[simp] theorem string_mk_nil : String.mk ([] : List Char) = "" := rfl

/-- C7 counterexample: the frame written for an event is not a bare JSON
object terminated by a blank line: each yielded frame carries the
SSE-style prefix `data: ` before the JSON object, as the concrete frame for
the first status event shows. -/
theorem frame_not_bare_json :
    frameIsBareJsonObject (.status "Starting video processing...") = false ∧
    frameOfEvent (.status "Starting video processing...") =
      "data: \x7b\"type\": \"status\", \"message\": \"Starting video processing...\"\x7d\n\n" := by
  exact ⟨by decide, rfl⟩

/-- C7 (amended: each frame is the prefix `data: ` followed by exactly one
JSON object of the stated form, terminated by a blank line, rather than a
bare newline-delimited JSON object): the response is the concatenation of
one such frame per event in emission order; the serialized JSON of every
event contains no newline and is a brace-delimited object opening with its
`type` key, so splitting the response on double newlines recovers exactly
the `data: `-prefixed JSON objects of the events, in order, plus a final
empty fragment. -/
theorem stream_frame_protocol (r : RunResult) :
    streamOutput r =
      strConcat (r.events.map (fun e => "data: " ++ jsonOfEvent e ++ "\n\n")) ∧
    (∀ e, strNoNewline ("data: " ++ jsonOfEvent e) = true) ∧
    (∀ e, strStarts (jsonOfEvent e) "\x7b\"type\": \"" = true ∧
          strEnds (jsonOfEvent e) "\x7d" = true) ∧
    splitFrames (streamOutput r) =
      r.events.map (fun e => "data: " ++ jsonOfEvent e) ++ [""] := by
  refine ⟨rfl, strNoNewline_frameBody,
          fun e => ⟨jsonOfEvent_starts e, jsonOfEvent_ends e⟩, ?_⟩
  have hb : ∀ b ∈ r.events.map (fun e => ("data: " ++ jsonOfEvent e).data),
      b.all (fun c => !(c == '\n')) = true := by
    intro b hbm
    obtain ⟨e, _, rfl⟩ := List.mem_map.mp hbm
    exact strNoNewline_frameBody e
  have hframe : ∀ e : Event, (frameOfEvent e).data =
      ("data: " ++ jsonOfEvent e).data ++ ['\n', '\n'] := by
    intro e
    rw [frameOfEvent, String.data_append]
  have hdata : (streamOutput r).data =
      ((r.events.map (fun e => ("data: " ++ jsonOfEvent e).data)).map
        (fun b => b ++ ['\n', '\n'])).flatten := by
    rw [streamOutput, data_strConcat]
    simp only [List.map_map, Function.comp_def, hframe]
  rw [splitFrames, hdata, splitNN_frames _ hb]
  simp only [List.map_append, List.map_map, Function.comp_def, string_mk_data,
             List.map_cons, List.map_nil, string_mk_nil]
